import Mathlib

/-!
Shallow embedding of the goloadenv package (Go): a reflection-driven loader
that populates a configuration structure from environment variables guided
by "env" struct tags.  Strings are modelled on their character lists; the
process environment is a total function from variable names to strings
(Go os.Getenv returns "" for an absent variable); the process-wide
duplicate-tag registry (the Go package-level `tagNames` map) is threaded
explicitly as a list of names.  A Go runtime panic (out-of-range index) is
modelled as an explicit outcome, distinct from a returned error.
-/

namespace Goloadenv

instance {ε α : Type} [DecidableEq ε] [DecidableEq α] : DecidableEq (Except ε α) := by
  intro a b
  cases a <;> cases b
  case ok.ok x y =>
    exact if h : x = y then isTrue (by rw [h]) else isFalse (by intro hc; cases hc; exact h rfl)
  case error.error x y =>
    exact if h : x = y then isTrue (by rw [h]) else isFalse (by intro hc; cases hc; exact h rfl)
  all_goals exact isFalse (by intro hc; cases hc)

/-! ## Tag splitting: SplitTags and strings.FieldsFunc / strings.Split -/

/-- Models the source predicate SplitTags: a tag separator is ";" or ":". -/
def SplitTags (r : Char) : Bool := r = ';' || r = ':'

/-- Split a character list at every separator character, keeping empty
pieces (the behaviour of Go strings.Split with a one-character separator). -/
def splitChars (p : Char → Bool) : List Char → List (List Char)
  | [] => [[]]
  | c :: cs =>
    if p c then [] :: splitChars p cs
    else
      match splitChars p cs with
      | [] => [[c]]
      | g :: gs => (c :: g) :: gs

/-- Models Go strings.FieldsFunc: split at separator runs, dropping empty
pieces (splitting at every separator and filtering empties is equivalent). -/
def goFieldsFunc (p : Char → Bool) (s : String) : List String :=
  ((splitChars p s.data).filter (fun g => !g.isEmpty)).map (fun g => String.mk g)

/-- Models Go strings.Split(str, ",") on a character list, keeping empties. -/
def goSplitComma (cs : List Char) : List String :=
  (splitChars (fun c => c = ',') cs).map (fun g => String.mk g)

/-! ## The tag map and tagSliceToKeyMap -/

/-- The map[string]string built by tagSliceToKeyMap, as an association list;
an insert conses in front, so the most recent binding wins on lookup,
matching Go map overwrite semantics. -/
abbrev TagMap := List (String × String)

def tmFind? (m : TagMap) (k : String) : Option String :=
  match m.find? (fun p => p.1 = k) with
  | some p => some p.2
  | none => none

/-- Go map indexing m[k] in rvalue position: "" when the key is absent. -/
def tmGet (m : TagMap) (k : String) : String := (tmFind? m k).getD ""

def tmInsert (m : TagMap) (k v : String) : TagMap := (k, v) :: m

/-- Outcome of the tag loop over the tokens after the name.  panic models
the Go runtime panic raised by the out-of-range access slice[index+1]. -/
inductive TagLoopRes where
  | panic
  | err (dup : String)
  | ok (m : TagMap)
deriving DecidableEq

/-- The body of the tagSliceToKeyMap loop for index >= 1: a "default"
token is duplicate-checked against the map, then consumes the following
token as its value (accessing slice[index+1], a panic when absent); any
other token is stored as a no-value flag. -/
def tagLoop (m : TagMap) : List String → TagLoopRes
  | [] => .ok m
  | item :: rest =>
    if item = "default" then
      if (tmFind? m item).isSome then .err item
      else
        match rest with
        | [] => .panic
        | v :: rest2 => tagLoop (tmInsert m item v) rest2
    else tagLoop (tmInsert m item "") rest

/-- Result of tagSliceToKeyMap, carrying the updated global tag-name
registry (the Go package variable tagNames) in every outcome. -/
inductive TagRes where
  | panic (names : List String)
  | err (dup : String) (names : List String)
  | ok (m : TagMap) (names : List String)
deriving DecidableEq

def TagRes.isPanic : TagRes → Bool
  | .panic _ => true
  | _ => false

/-- Models tagSliceToKeyMap: the first token is the name, recorded in the
global registry after a duplicate check; the remaining tokens are handled
by the loop.  On the duplicate-name error the registry is unchanged (the
check precedes the insertion); once the name is recorded it stays recorded
even if a later token errs or panics. -/
def tagSliceToKeyMap (names : List String) : List String → TagRes
  | [] => .ok [] names
  | name :: rest =>
    if name ∈ names then .err name names
    else
      match tagLoop (tmInsert [] "name" name) rest with
      | .panic => .panic (name :: names)
      | .err d => .err d (name :: names)
      | .ok m2 => .ok m2 (name :: names)

/-- Models getTags: read the "env" tag (here: the tag string itself), split
it with SplitTags, and hand the tokens to tagSliceToKeyMap. -/
def getTags (names : List String) (tag : String) : TagRes :=
  tagSliceToKeyMap names (goFieldsFunc SplitTags tag)

/-- The precondition of claim C10 on the tokens after the name: every
"default" keyword is followed by a value token (which the loop consumes
together with it). -/
def noDanglingDefault : List String → Bool
  | [] => true
  | item :: rest =>
    if item = "default" then
      match rest with
      | [] => false
      | _ :: rest2 => noDanglingDefault rest2
    else noDanglingDefault rest

/-! ## The value model: Go values reachable from a config struct

Scalar kinds are int, string, and named custom scalar-like types (such as
the CustomMapType of the package tests, or registered types); collection
fields hold scalar elements, which covers every type exercised by the
package.  A field records its declared Go name (whose case determines
reflect CanSet), its raw "env" tag string, and its current value. -/

inductive ETy where
  | eint
  | estr
  | ecustom (tyName : String)
deriving DecidableEq

mutual
inductive Val where
  | vint (n : Int)
  | vstr (s : String)
  | vcustom (tyName : String) (payload : String)
  | vslice (elemTy : ETy) (elts : ValList)
  | varray (elemTy : ETy) (size : Nat) (elts : ValList)
  | vstruct (fields : Fields)
deriving DecidableEq
inductive ValList where
  | vnil
  | vcons (v : Val) (rest : ValList)
deriving DecidableEq
inductive Fields where
  | fnil
  | fcons (fname : String) (tag : String) (v : Val) (rest : Fields)
deriving DecidableEq
end

def ValList.toList : ValList → List Val
  | .vnil => []
  | .vcons v r => v :: r.toList

def ValList.ofList : List Val → ValList
  | [] => .vnil
  | v :: r => .vcons v (ValList.ofList r)

/-- The reflect Kind-driven dispatch type of a scalar value. -/
def Val.scalarTy : Val → Option ETy
  | .vint _ => some .eint
  | .vstr _ => some .estr
  | .vcustom t _ => some (.ecustom t)
  | _ => none

def Val.isStructV : Val → Bool
  | .vstruct _ => true
  | _ => false

def Val.isSliceV : Val → Bool
  | .vslice _ _ => true
  | _ => false

def Val.isArrayV : Val → Bool
  | .varray _ _ _ => true
  | _ => false

/-- The Go zero value of a scalar type (reflect.MakeSlice fills new slots
with these). -/
def zeroOf : ETy → Val
  | .eint => .vint 0
  | .estr => .vstr ""
  | .ecustom t => .vcustom t ""

def Fields.firstName : Fields → Option String
  | .fnil => none
  | .fcons fname _ _ _ => some fname

/-- Name of the first inner field of a struct value, the quantity
val.Field(i).Type().Field(0).Name used by the nested-error wrapper. -/
def Val.structFirstName : Val → Option String
  | .vstruct inner => inner.firstName
  | _ => none

/-- Models reflect CanSet for a field of an addressable struct: the field
must be exported, that is, its declared name starts with an upper-case
letter. -/
def isExported (fname : String) : Bool :=
  match fname.data with
  | [] => false
  | c :: _ => c.isUpper

/-! ## Errors -/

/-- The error values produced by the package; fieldTags and nested model
the fmt.Errorf wrappers of LoadEnv, and goPanic models a Go runtime panic
(an out-of-range index), which is not a returned error. -/
inductive LoadErr where
  | envNotFound (env : String)
  | envParse (value : String) (env : String) (cause : String)
  | notStructPtr
  | dupTag (name : String)
  | fieldTags (fieldName : String) (e : LoadErr)
  | nested (innerFieldName : String) (e : LoadErr)
  | goPanic
deriving DecidableEq

/-- The Error() string of each error value. -/
def LoadErr.message : LoadErr → String
  | .envNotFound env => "environment variable not found: " ++ env
  | .envParse value env cause =>
      "error parsing \x27" ++ value ++ "\x27 as environment variable " ++ env ++ ": " ++ cause
  | .notStructPtr => "config must be a pointer to a struct"
  | .dupTag n => "duplicate tag: " ++ n
  | .fieldTags f e => "error getting tags for field: \x27" ++ f ++ "\x27: " ++ e.message
  | .nested f e => "error loading nested struct \x27" ++ f ++ "\x27: " ++ e.message
  | .goPanic => "runtime error: index out of range"

/-! ## Environment access and getField -/

/-- Models os.Getenv: a total map from variable names to values, where ""
means absent (Go does not distinguish unset from empty here). -/
abbrev Env := String → String

/-- Models getField: environment value if non-empty, else the default if
declared, else "" if optional, else an EnvNotFoundError. -/
def getField (env : Env) (tags : TagMap) : Except LoadErr String :=
  let str := env (tmGet tags "name")
  if str ≠ "" then .ok str
  else
    match tmFind? tags "default" with
    | some d => .ok d
    | none =>
      if (tmFind? tags "optional").isSome then .ok ""
      else .error (.envNotFound (tmGet tags "name"))

/-! ## Scalar conversion: the fmt.Sscan fallback and the envTypes registry -/

def isSpaceGo (c : Char) : Bool := c = ' ' || c = '\t' || c = '\n' || c = '\r'

def digitsVal (cs : List Char) : Nat :=
  cs.foldl (fun acc c => acc * 10 + (c.toNat - '0'.toNat)) 0

/-- Models fmt.Sscan of a decimal integer: skip leading space, optional
sign, then a non-empty digit prefix; trailing input is left unread. -/
def scanInt (cs0 : List Char) : Option Int :=
  let cs := cs0.dropWhile isSpaceGo
  match cs with
  | '-' :: rest =>
    let ds := rest.takeWhile Char.isDigit
    if ds.isEmpty then none else some (-(digitsVal ds : Int))
  | '+' :: rest =>
    let ds := rest.takeWhile Char.isDigit
    if ds.isEmpty then none else some ((digitsVal ds : Int))
  | _ =>
    let ds := cs.takeWhile Char.isDigit
    if ds.isEmpty then none else some ((digitsVal ds : Int))

/-- Models fmt.Sscan of a string: one space-delimited token, an EOF error
when there is none. -/
def scanToken (cs : List Char) : Option String :=
  let t := (cs.dropWhile isSpaceGo).takeWhile (fun c => !isSpaceGo c)
  if t.isEmpty then none else some (String.mk t)

/-- Models the fmt.Sscan fallback path of setField for each scalar kind;
named custom types support no direct textual scanning, producing the
scan-type error seen in the package tests (whose package name is
load_config). -/
def sscan (t : ETy) (s : String) : Except String Val :=
  match t with
  | .eint =>
    match scanInt s.data with
    | some n => .ok (.vint n)
    | none => .error "expected integer"
  | .estr =>
    match scanToken s.data with
    | some tok => .ok (.vstr tok)
    | none => .error "unexpected EOF"
  | .ecustom tyName => .error ("can\x27t scan type: *load_config." ++ tyName)

/-- A registered converter: the EnvType function string -> (value, error). -/
abbrev Converter := String → Except String Val

/-- The envTypes registry, keyed by semantic type.  Registration conses in
front and lookup takes the first hit, so a later registration for the same
type overwrites the earlier one, matching Go map assignment. -/
abbrev EnvTypes := List (ETy × Converter)

def lookupEnvType (reg : EnvTypes) (t : ETy) : Option Converter :=
  match reg.find? (fun p => p.1 = t) with
  | some p => some p.2
  | none => none

/-- Models RegisterEnvType: install or overwrite the converter for t. -/
def registerEnvType (reg : EnvTypes) (t : ETy) (f : Converter) : EnvTypes :=
  (t, f) :: reg

/-- Models setField: a non-settable field is an error; a registered
converter for the field type takes precedence; otherwise the generic
fmt.Sscan fallback runs.  Conversion failures are wrapped in an
EnvParseError carrying the raw string and the directive name.  The final
branch covers composite kinds, which Sscan cannot scan. -/
def setField (reg : EnvTypes) (canSet : Bool) (cur : Val) (str : String) (tags : TagMap) :
    Except LoadErr Val :=
  if !canSet then .error (.envParse str (tmGet tags "name") "field cannot be set")
  else
    match cur.scalarTy with
    | some t =>
      match lookupEnvType reg t with
      | some conv =>
        match conv str with
        | .ok v => .ok v
        | .error e => .error (.envParse str (tmGet tags "name") e)
      | none =>
        match sscan t str with
        | .ok v => .ok v
        | .error e => .error (.envParse str (tmGet tags "name") e)
    | none => .error (.envParse str (tmGet tags "name") "can\x27t scan type")

/-! ## The collection populator -/

/-- Models parseArrayString.  Go operator precedence makes the source
condition len(str) < 2 || str[:1] != "[" && str[len(str)-1:] != "]" group
as: too short, OR (no leading bracket AND no trailing bracket); then the
first and last characters are stripped and the rest split on commas. -/
def parseArrayString (str : String) : Except String (List String) :=
  let cs := str.data
  if cs.length < 2 || (!(cs.take 1 = ['[']) && !(cs.getLast? = some ']')) then
    .error "invalid array format"
  else
    .ok (goSplitComma ((cs.drop 1).dropLast))

/-- The element loop of setIterableField: setField on each element slot in
order, stopping at the first failure (later slots keep their prior
values).  Running out of slots models the reflect panic on Index(i) with i
out of range, reachable only for a zero-length array target. -/
def convertInto (reg : EnvTypes) (canSet : Bool) (tags : TagMap) :
    List Val → List String → List Val × Option LoadErr
  | elts, [] => (elts, none)
  | [], _ :: _ => ([], some .goPanic)
  | e :: elts, s :: strs =>
    match setField reg canSet e s tags with
    | .error err => (e :: elts, some err)
    | .ok v =>
      match convertInto reg canSet tags elts strs with
      | (rest, r) => (v :: rest, r)

/-- Models setIterableField, returning the field value after the call (Go
mutates in place, so partial writes persist) together with the error, if
any.  For an array, maxLength is the declared size and a positive
maxLength bounds the parsed element count; a slice is reallocated to
exactly the parsed count (reflect.MakeSlice) before the element loop. -/
def setIterableField (reg : EnvTypes) (canSet : Bool) (cur : Val) (str : String)
    (tags : TagMap) : Val × Option LoadErr :=
  if !canSet then (cur, some (.envParse str (tmGet tags "name") "field cannot be set"))
  else
    match cur with
    | .vslice t elts =>
      match parseArrayString str with
      | .error e => (.vslice t elts, some (.envParse str (tmGet tags "name") e))
      | .ok strVals =>
        match convertInto reg canSet tags (List.replicate strVals.length (zeroOf t)) strVals with
        | (out, r) => (.vslice t (ValList.ofList out), r)
    | .varray t n elts =>
      match parseArrayString str with
      | .error e => (.varray t n elts, some (.envParse str (tmGet tags "name") e))
      | .ok strVals =>
        if n > 0 && strVals.length > n then
          (.varray t n elts, some (.envParse str (tmGet tags "name")
            ("array size overflow, expected " ++ toString n ++ ", got " ++
              toString strVals.length)))
        else
          match convertInto reg canSet tags elts.toList strVals with
          | (out, r) => (.varray t n (ValList.ofList out), r)
    | v => (v, some (.envParse str (tmGet tags "name") "field is not a slice or array"))

/-! ## The structure walker: LoadEnv -/

/-- The argument to LoadEnv: either a pointer to a value or a plain value
(the latter fails the pointer-to-struct precondition). -/
inductive GoVal where
  | ptr (v : Val)
  | val (v : Val)
deriving DecidableEq

/-- Result of a LoadEnv call: the config value after the call (in-place
mutations persist even on failure), the duplicate-tag registry after the
call, and the error, if any. -/
structure LoadResult where
  config : GoVal
  names : List String
  err : Option LoadErr
deriving DecidableEq

mutual

/-- The recursive LoadEnv call on the address of a nested struct field.
Its argument is always a pointer to a struct, so the precondition check of
LoadEnv passes and control reaches the field loop directly. -/
def loadNested (reg : EnvTypes) (env : Env) (ns : List String) :
    Val → Val × List String × Option LoadErr
  | .vstruct inner =>
    match loadFields reg env ns inner with
    | (inner2, ns2, r) => (.vstruct inner2, ns2, r)
  | v => (v, ns, none)

/-- The field loop of LoadEnv, lines 82-117 of the source: per field, in
declaration order: parse the tag (errors wrapped with the declared name of
the field); recurse into a struct-valued field (errors wrapped with the
name of the first inner field of the nested struct, Type().Field(0).Name); skip
untagged fields; resolve the textual value with getField; skip when it is
empty; dispatch slices and arrays to setIterableField and everything else
to setField; any failure aborts the walk at once. -/
def loadFields (reg : EnvTypes) (env : Env) (names : List String) :
    Fields → Fields × List String × Option LoadErr
  | .fnil => (.fnil, names, none)
  | .fcons fname tag v rest =>
    match getTags names tag with
    | .panic ns => (.fcons fname tag v rest, ns, some .goPanic)
    | .err d ns => (.fcons fname tag v rest, ns, some (.fieldTags fname (.dupTag d)))
    | .ok tags ns =>
      if v.isStructV then
        match loadNested reg env ns v with
        | (v2, ns2, some e) =>
          match v.structFirstName with
          | some n0 => (.fcons fname tag v2 rest, ns2, some (.nested n0 e))
          | none => (.fcons fname tag v2 rest, ns2, some .goPanic)
        | (v2, ns2, none) =>
          match loadFields reg env ns2 rest with
          | (rest2, ns3, r) => (.fcons fname tag v2 rest2, ns3, r)
      else
        if tmGet tags "name" = "" then
          match loadFields reg env ns rest with
          | (rest2, ns2, r) => (.fcons fname tag v rest2, ns2, r)
        else
          match getField env tags with
          | .error e => (.fcons fname tag v rest, ns, some e)
          | .ok str =>
            if str = "" then
              match loadFields reg env ns rest with
              | (rest2, ns2, r) => (.fcons fname tag v rest2, ns2, r)
            else
              if v.isSliceV || v.isArrayV then
                match setIterableField reg (isExported fname) v str tags with
                | (v2, some e) => (.fcons fname tag v2 rest, ns, some e)
                | (v2, none) =>
                  match loadFields reg env ns rest with
                  | (rest2, ns2, r) => (.fcons fname tag v2 rest2, ns2, r)
              else
                match setField reg (isExported fname) v str tags with
                | .error e => (.fcons fname tag v rest, ns, some e)
                | .ok v2 =>
                  match loadFields reg env ns rest with
                  | (rest2, ns2, r) => (.fcons fname tag v2 rest2, ns2, r)

end

/-- Models LoadEnv: reject any argument that is not a pointer to a struct,
then walk the fields. -/
def loadEnv (reg : EnvTypes) (env : Env) (names : List String) (config : GoVal) :
    LoadResult :=
  match config with
  | .val v => ⟨.val v, names, some .notStructPtr⟩
  | .ptr v =>
    match v with
    | .vstruct fs =>
      match loadFields reg env names fs with
      | (fs2, ns, r) => ⟨.ptr (.vstruct fs2), ns, r⟩
    | w => ⟨.ptr w, names, some .notStructPtr⟩

/-! ## Helper lemmas -/

theorem ValList.toList_ofList (l : List Val) : (ValList.ofList l).toList = l := by
  induction l with
  | nil => rfl
  | cons v r ih => simp [ValList.ofList, ValList.toList, ih]

/-- Tokens produced by FieldsFunc are never empty. -/
theorem goFieldsFunc_mem_ne_empty {p : Char → Bool} {s x : String}
    (hx : x ∈ goFieldsFunc p s) : x ≠ "" := by
  simp only [goFieldsFunc, List.mem_map, List.mem_filter] at hx
  obtain ⟨g, ⟨_, hne⟩, rfl⟩ := hx
  intro h
  rw [show ("" : String) = String.mk [] from rfl] at h
  cases h
  simp at hne

/-- setField inspects its current value only through its scalar type. -/
theorem setField_congr (reg : EnvTypes) (canSet : Bool) (s : String) (tags : TagMap)
    {e e2 : Val} (h : e.scalarTy = e2.scalarTy) :
    setField reg canSet e s tags = setField reg canSet e2 s tags := by
  unfold setField
  rw [h]

theorem zeroOf_scalarTy (t : ETy) : (zeroOf t).scalarTy = some t := by
  cases t <;> rfl

/-- A value with a scalar type is not a slice, array or struct. -/
theorem scalarTy_kinds {v : Val} {t : ETy} (h : v.scalarTy = some t) :
    v.isSliceV = false ∧ v.isArrayV = false ∧ v.isStructV = false := by
  cases v <;> simp_all [Val.scalarTy, Val.isSliceV, Val.isArrayV, Val.isStructV]

/-- Every error setField returns is an EnvParseError carrying the raw
string it was given and the directive name. -/
theorem setField_error_shape (reg : EnvTypes) (canSet : Bool) (cur : Val) (s : String)
    (tags : TagMap) (e : LoadErr) (h : setField reg canSet cur s tags = .error e) :
    ∃ cause, e = .envParse s (tmGet tags "name") cause := by
  unfold setField at h
  split at h
  · exact ⟨"field cannot be set", by cases h; rfl⟩
  · split at h
    · split at h
      · split at h
        · cases h
        · exact ⟨_, by cases h; rfl⟩
      · split at h
        · cases h
        · exact ⟨_, by cases h; rfl⟩
    · exact ⟨_, by cases h; rfl⟩

/-- The element loop never changes the number of slots. -/
theorem convertInto_length (reg : EnvTypes) (canSet : Bool) (tags : TagMap) :
    ∀ (elts : List Val) (strs : List String),
      (convertInto reg canSet tags elts strs).1.length = elts.length := by
  intro elts strs
  induction strs generalizing elts with
  | nil => simp [convertInto]
  | cons s strs ih =>
    cases elts with
    | nil => simp [convertInto]
    | cons e elts =>
      simp only [convertInto]
      cases hsf : setField reg canSet e s tags with
      | error err => simp
      | ok v =>
        have := ih elts
        simp_all

/-- When every element string converts successfully, the element loop
replaces the first slots by the converted values in order and reports no
error. -/
theorem convertInto_ok (reg : EnvTypes) (canSet : Bool) (tags : TagMap) (t : ETy)
    (f : String → Val) :
    ∀ (strs : List String) (elts : List Val),
      strs.length ≤ elts.length →
      (∀ e ∈ elts, e.scalarTy = some t) →
      (∀ s ∈ strs, setField reg canSet (zeroOf t) s tags = .ok (f s)) →
      convertInto reg canSet tags elts strs = (strs.map f ++ elts.drop strs.length, none) := by
  intro strs
  induction strs with
  | nil => intro elts _ _ _; simp [convertInto]
  | cons s strs ih =>
    intro elts hlen hty hok
    cases elts with
    | nil => simp at hlen
    | cons e elts =>
      simp only [convertInto]
      have he : setField reg canSet e s tags = .ok (f s) := by
        rw [setField_congr reg canSet s tags
          (show e.scalarTy = (zeroOf t).scalarTy by
            rw [zeroOf_scalarTy]; exact hty e (by simp))]
        exact hok s (by simp)
      rw [he, ih elts (by simpa using hlen) (fun x hx => hty x (by simp [hx]))
        (fun x hx => hok x (by simp [hx]))]
      simp

/-- When the strings split as pre ++ s :: post, every string of pre
converts and s fails, the element loop writes the converted prefix,
leaves the remaining slots untouched, and stops with the failing
error of that element. -/
theorem convertInto_fail (reg : EnvTypes) (canSet : Bool) (tags : TagMap) (t : ETy)
    (f : String → Val) (s : String) (er : LoadErr) :
    ∀ (pre : List String) (post : List String) (elts : List Val),
      pre.length + 1 + post.length ≤ elts.length →
      (∀ e ∈ elts, e.scalarTy = some t) →
      (∀ x ∈ pre, setField reg canSet (zeroOf t) x tags = .ok (f x)) →
      setField reg canSet (zeroOf t) s tags = .error er →
      convertInto reg canSet tags elts (pre ++ s :: post) =
        (pre.map f ++ elts.drop pre.length, some er) := by
  intro pre
  induction pre with
  | nil =>
    intro post elts hlen hty hok hfail
    cases elts with
    | nil => simp at hlen
    | cons e elts =>
      simp only [convertInto, List.nil_append]
      have he : setField reg canSet e s tags = .error er := by
        rw [setField_congr reg canSet s tags
          (show e.scalarTy = (zeroOf t).scalarTy by
            rw [zeroOf_scalarTy]; exact hty e (by simp))]
        exact hfail
      rw [he]
      simp
  | cons x pre ih =>
    intro post elts hlen hty hok hfail
    cases elts with
    | nil => simp at hlen
    | cons e elts =>
      simp only [convertInto, List.cons_append]
      have he : setField reg canSet e x tags = .ok (f x) := by
        rw [setField_congr reg canSet x tags
          (show e.scalarTy = (zeroOf t).scalarTy by
            rw [zeroOf_scalarTy]; exact hty e (by simp))]
        exact hok x (by simp)
      rw [he]
      have h2 := ih post elts (by simp at hlen ⊢; omega)
        (fun y hy => hty y (by simp [hy])) (fun y hy => hok y (by simp [hy])) hfail
      simp only [List.append_eq] at h2 ⊢
      simp [h2]

/-! ## Claims -/

/-- C1: for a field with a non-empty directive name, the textual value is
resolved as: the environment value when present and non-empty; else the
declared default; else, when optional is declared, the field is skipped
(its value unchanged, hence still zero) and Load succeeds; else Load fails
with an EnvNotFoundError whose message is
"environment variable not found: name". -/
theorem C1_field_resolution (env : Env) (tags : TagMap) (N : String)
    (hname : tmGet tags "name" = N) (hN : N ≠ "") :
    (env N ≠ "" → getField env tags = Except.ok (env N)) ∧
    (env N = "" → ∀ d, tmFind? tags "default" = some d → getField env tags = Except.ok d) ∧
    (env N = "" → tmFind? tags "default" = none → (tmFind? tags "optional").isSome = true →
      getField env tags = Except.ok "") ∧
    (env N = "" → tmFind? tags "default" = none → (tmFind? tags "optional").isSome = false →
      getField env tags = Except.error (LoadErr.envNotFound N) ∧
      (LoadErr.envNotFound N).message = "environment variable not found: " ++ N) ∧
    (∀ (reg : EnvTypes) (names ns : List String) (fname tagS : String) (v : Val),
      getTags names tagS = TagRes.ok tags ns → Val.isStructV v = false →
      env N = "" → tmFind? tags "default" = none → (tmFind? tags "optional").isSome = true →
      loadEnv reg env names (GoVal.ptr (Val.vstruct (Fields.fcons fname tagS v Fields.fnil))) =
        ⟨GoVal.ptr (Val.vstruct (Fields.fcons fname tagS v Fields.fnil)), ns, none⟩) := by
  refine ⟨?_, ?_, ?_, ?_, ?_⟩
  · intro h; simp [getField, hname, h]
  · intro h d hd; simp [getField, hname, h, hd]
  · intro h hd hopt; simp [getField, hname, h, hd, hopt]
  · intro h hd hopt
    refine ⟨?_, rfl⟩
    simp [getField, hname, h, hd, hopt]
  · intro reg names ns fname tagS v htags hv h hd hopt
    have hgf : getField env tags = Except.ok "" := by simp [getField, hname, h, hd, hopt]
    simp [loadEnv, loadFields, htags, hv, hname, hN, hgf]

/-- C1 witness: an optional field with no environment value is skipped,
keeps its zero value and the load succeeds. -/
theorem C1_field_resolution_witness :
    loadEnv [] (fun _ => "") [] (GoVal.ptr (Val.vstruct
      (Fields.fcons "LogLevel" "OPT;optional" (Val.vstr "") Fields.fnil))) =
      ⟨GoVal.ptr (Val.vstruct (Fields.fcons "LogLevel" "OPT;optional" (Val.vstr "") Fields.fnil)),
       ["OPT"], none⟩ :=
  (C1_field_resolution (fun _ => "") [("optional", ""), ("name", "OPT")] "OPT" (by decide)
      (by decide)).2.2.2.2 [] [] ["OPT"] "LogLevel" "OPT;optional" (Val.vstr "")
      (by decide) (by decide) rfl (by decide) (by decide)

/-- C2 counterexample: the input "[1,2" lacks the trailing bracket, yet
parseArrayString accepts it (the source condition only rejects an input
missing BOTH brackets, by Go operator precedence), strips the first and
last characters, and the populator then writes an element before failing
on the empty second element string. -/
theorem C2_counterexample :
    parseArrayString "[1,2" = Except.ok ["1", ""] ∧
    setIterableField [] true (Val.vslice ETy.eint ValList.vnil) "[1,2" [("name", "A")] =
      (Val.vslice ETy.eint (ValList.vcons (Val.vint 1) (ValList.vcons (Val.vint 0) ValList.vnil)),
       some (LoadErr.envParse "" "A" "expected integer")) := by decide

/-- C2 (amended): collection population fails with the FormatError
"invalid array format" exactly when the raw string is shorter than two
characters or lacks BOTH the leading bracket and the trailing bracket; in
that failure case no element is written to the target field. -/
theorem C2_bracket_check (str : String) (reg : EnvTypes) (t : ETy) (elts : ValList)
    (tags : TagMap) (n : Nat)
    (h : str.data.length < 2 ∨ (str.data.take 1 ≠ ['['] ∧ str.data.getLast? ≠ some ']')) :
    parseArrayString str = Except.error "invalid array format" ∧
    setIterableField reg true (Val.vslice t elts) str tags =
      (Val.vslice t elts, some (LoadErr.envParse str (tmGet tags "name") "invalid array format")) ∧
    setIterableField reg true (Val.varray t n elts) str tags =
      (Val.varray t n elts,
       some (LoadErr.envParse str (tmGet tags "name") "invalid array format")) := by
  have hp : parseArrayString str = Except.error "invalid array format" := by
    simp only [parseArrayString]
    rcases h with h | ⟨h1, h2⟩
    · have h2 : str.length < 2 := h
      simp [h2]
    · simp [h1, h2]
  exact ⟨hp, by simp [setIterableField, hp], by simp [setIterableField, hp]⟩

/-- C2 witness: "1,2" has neither bracket and is rejected with the format
error, leaving the slice untouched. -/
theorem C2_bracket_check_witness :
    setIterableField [] true (Val.vslice ETy.eint ValList.vnil) "1,2" [("name", "A")] =
      (Val.vslice ETy.eint ValList.vnil,
       some (LoadErr.envParse "1,2" "A" "invalid array format")) :=
  (C2_bracket_check "1,2" [] ETy.eint ValList.vnil [("name", "A")] 3 (by decide)).2.1

/-- C3 counterexample: for a fixed-size container of capacity 0 the parsed
element count (always at least 1) exceeds the capacity, yet Load does not
fail with the overflow error: the guard maxLength > 0 skips the check and
the element loop indexes past the end of the array, a runtime panic. -/
theorem C3_counterexample :
    (loadEnv [] (fun k => if k = "A" then "[1]" else "") []
      (GoVal.ptr (Val.vstruct (Fields.fcons "F" "A"
        (Val.varray ETy.eint 0 ValList.vnil) Fields.fnil)))).err = some LoadErr.goPanic ∧
    (loadEnv [] (fun k => if k = "A" then "[1]" else "") []
      (GoVal.ptr (Val.vstruct (Fields.fcons "F" "A"
        (Val.varray ETy.eint 0 ValList.vnil) Fields.fnil)))).err ≠
      some (LoadErr.envParse "[1]" "A" "array size overflow, expected 0, got 1") := by decide

/-- C3 (amended): for a fixed-size container of capacity n >= 1: when the
bracketed input parses to at most n convertible elements, Load succeeds
and the first elements are the converted element strings in order (the
concrete size-5 example included); when the parsed count m exceeds n, Load
fails with the overflow error "array size overflow, expected n, got m"
(the concrete size-4 example included).  A capacity-0 container instead
panics in the element loop. -/
theorem C3_fixed_capacity (reg : EnvTypes) :
    (loadEnv [] (fun k => if k = "A" then "[1,2,3,4,5]" else "") []
      (GoVal.ptr (Val.vstruct (Fields.fcons "F" "A"
        (Val.varray ETy.eint 5 (ValList.ofList (List.replicate 5 (Val.vint 0))))
        Fields.fnil))) =
      ⟨GoVal.ptr (Val.vstruct (Fields.fcons "F" "A"
        (Val.varray ETy.eint 5 (ValList.ofList
          [Val.vint 1, Val.vint 2, Val.vint 3, Val.vint 4, Val.vint 5])) Fields.fnil)),
       ["A"], none⟩) ∧
    ((loadEnv [] (fun k => if k = "A" then "[1,2,3,4,5]" else "") []
      (GoVal.ptr (Val.vstruct (Fields.fcons "F" "A"
        (Val.varray ETy.eint 4 (ValList.ofList (List.replicate 4 (Val.vint 0))))
        Fields.fnil)))).err =
      some (LoadErr.envParse "[1,2,3,4,5]" "A" "array size overflow, expected 4, got 5")) ∧
    (∀ (t : ETy) (n : Nat) (elts : ValList) (tags : TagMap) (str : String)
       (strVals : List String),
      parseArrayString str = Except.ok strVals → 1 ≤ n → n < strVals.length →
      setIterableField reg true (Val.varray t n elts) str tags =
        (Val.varray t n elts, some (LoadErr.envParse str (tmGet tags "name")
          ("array size overflow, expected " ++ toString n ++ ", got " ++
            toString strVals.length)))) ∧
    (∀ (t : ETy) (n : Nat) (elts : ValList) (tags : TagMap) (str : String)
       (strVals : List String) (f : String → Val),
      parseArrayString str = Except.ok strVals → strVals.length ≤ n →
      elts.toList.length = n → (∀ e ∈ elts.toList, e.scalarTy = some t) →
      (∀ s ∈ strVals, setField reg true (zeroOf t) s tags = Except.ok (f s)) →
      setIterableField reg true (Val.varray t n elts) str tags =
        (Val.varray t n (ValList.ofList
          (strVals.map f ++ elts.toList.drop strVals.length)), none)) := by
  refine ⟨by decide, by decide, ?_, ?_⟩
  · intro t n elts tags str strVals hparse h1 h2
    have hn : 0 < n := h1
    simp [setIterableField, hparse, h2, hn]
  · intro t n elts tags str strVals f hparse hlen helts hty hok
    have hconv := convertInto_ok reg true tags t f strVals elts.toList
      (by omega) hty hok
    have hno : ¬ n < strVals.length := by omega
    simp [setIterableField, hparse, hno, hconv]

/-- C3 witness: a capacity-2 container overflows on three elements, and a
capacity-3 container accepts two elements, converted in order, leaving the
last slot at its zero value. -/
theorem C3_fixed_capacity_witness :
    setIterableField [] true (Val.varray ETy.eint 2 (ValList.ofList
        [Val.vint 0, Val.vint 0])) "[7,8,9]" [("name", "B")] =
      (Val.varray ETy.eint 2 (ValList.ofList [Val.vint 0, Val.vint 0]),
       some (LoadErr.envParse "[7,8,9]" "B" "array size overflow, expected 2, got 3")) ∧
    setIterableField [] true (Val.varray ETy.eint 3 (ValList.ofList
        [Val.vint 0, Val.vint 0, Val.vint 0])) "[7,8]" [("name", "B")] =
      (Val.varray ETy.eint 3 (ValList.ofList [Val.vint 7, Val.vint 8, Val.vint 0]), none) :=
  ⟨(C3_fixed_capacity []).2.2.1 ETy.eint 2 (ValList.ofList [Val.vint 0, Val.vint 0])
      [("name", "B")] "[7,8,9]" ["7", "8", "9"] (by decide) (by decide) (by decide),
   by
    have h := (C3_fixed_capacity []).2.2.2 ETy.eint 3
      (ValList.ofList [Val.vint 0, Val.vint 0, Val.vint 0]) [("name", "B")] "[7,8]"
      ["7", "8"] (fun s => Val.vint ((scanInt s.data).getD 0)) (by decide) (by decide)
      (by decide) (by decide) (by decide)
    simpa using h⟩

/-- C4 counterexample: two sibling fields both tagged HOST, with no HOST
in the environment: Load fails, but with the EnvNotFoundError of the first
field, not a DuplicateDirective error — the walk never reaches the second
tag parse of the second field. -/
theorem C4_counterexample :
    (loadEnv [] (fun _ => "") []
      (GoVal.ptr (Val.vstruct (Fields.fcons "Host" "HOST" (Val.vstr "")
        (Fields.fcons "Host2" "HOST" (Val.vstr "") Fields.fnil))))).err =
      some (LoadErr.envNotFound "HOST") := by decide

/-- C4 (amended): parsing a field tag whose name is already in the
registry fails with the duplicate error wrapped with the declared name of
that field, and its message embeds "duplicate tag: name"; in particular, when
two sibling fields carry the same name and the first one resolves and
converts successfully, Load fails with the duplicate error wrapped with
the declared name of the second field. -/
theorem C4_duplicate_tag (reg : EnvTypes) (env : Env) (N : String) :
    (∀ (names : List String) (f tagS : String) (ts : List String) (v : Val) (rest : Fields),
      goFieldsFunc SplitTags tagS = N :: ts → N ∈ names →
      loadFields reg env names (Fields.fcons f tagS v rest) =
        (Fields.fcons f tagS v rest, names, some (LoadErr.fieldTags f (LoadErr.dupTag N)))) ∧
    (∀ f : String, (LoadErr.fieldTags f (LoadErr.dupTag N)).message =
      "error getting tags for field: \x27" ++ f ++ "\x27: duplicate tag: " ++ N) ∧
    (∀ (names : List String) (f1 f2 tag1 tag2 : String) (ts2 : List String)
       (v1 w v2 : Val) (rest : Fields),
      goFieldsFunc SplitTags tag1 = [N] → goFieldsFunc SplitTags tag2 = N :: ts2 →
      ¬ N ∈ names → Val.isStructV v1 = false → Val.isSliceV v1 = false →
      Val.isArrayV v1 = false → env N ≠ "" →
      setField reg (isExported f1) v1 (env N) [("name", N)] = Except.ok w →
      loadFields reg env names (Fields.fcons f1 tag1 v1 (Fields.fcons f2 tag2 v2 rest)) =
        (Fields.fcons f1 tag1 w (Fields.fcons f2 tag2 v2 rest), N :: names,
         some (LoadErr.fieldTags f2 (LoadErr.dupTag N)))) := by
  refine ⟨?_, ?_, ?_⟩
  · intro names f tagS ts v rest hparse hmem
    simp [loadFields, getTags, hparse, tagSliceToKeyMap, hmem]
  · intro f
    apply String.ext
    simp [LoadErr.message, String.data_append, List.append_assoc]
  · intro names f1 f2 tag1 tag2 ts2 v1 w v2 rest h1 h2 hmem hstruct hslice harray henv hset
    have hN : N ≠ "" := goFieldsFunc_mem_ne_empty (by rw [h1]; simp)
    have htags1 : getTags names tag1 = TagRes.ok [("name", N)] (N :: names) := by
      simp [getTags, h1, tagSliceToKeyMap, hmem, tagLoop, tmInsert]
    have hname1 : tmGet [("name", N)] "name" = N := by simp [tmGet, tmFind?]
    have hgf : getField env [("name", N)] = Except.ok (env N) := by
      simp [getField, hname1, henv]
    have htags2 : getTags (N :: names) tag2 = TagRes.err N (N :: names) := by
      simp [getTags, h2, tagSliceToKeyMap]
    simp [loadFields, htags1, hstruct, hname1, hN, hgf, henv, hslice, harray, hset, htags2]

/-- C4 witness: Host and Host2 both tagged HOST with HOST set in the
environment: the first resolves, the second trips the duplicate check. -/
theorem C4_duplicate_tag_witness :
    loadFields [] (fun k => if k = "HOST" then "localhost" else "") []
      (Fields.fcons "Host" "HOST" (Val.vstr "")
        (Fields.fcons "Host2" "HOST" (Val.vstr "") Fields.fnil)) =
      (Fields.fcons "Host" "HOST" (Val.vstr "localhost")
        (Fields.fcons "Host2" "HOST" (Val.vstr "") Fields.fnil), ["HOST"],
       some (LoadErr.fieldTags "Host2" (LoadErr.dupTag "HOST"))) :=
  (C4_duplicate_tag [] (fun k => if k = "HOST" then "localhost" else "") "HOST").2.2
    [] "Host" "Host2" "HOST" "HOST" [] (Val.vstr "") (Val.vstr "localhost") (Val.vstr "")
    Fields.fnil (by decide) (by decide) (by decide) (by decide) (by decide) (by decide)
    (by decide) (by decide)

/-- C5: when the recursive load of a nested struct field fails, the
surfaced error message names the inner field and embeds the cause, and the
named field is the declared name of the first inner field of the nested
struct itself (not the name of the outer field), the cause is embedded
verbatim, and no sibling field after the failing one is processed (the
tail of the field list is returned untouched). -/
theorem C5_nested_error (reg : EnvTypes) (env : Env) (names ns ns2 : List String)
    (f tagS n0 : String) (tags : TagMap) (inner inner2 rest : Fields) (e : LoadErr)
    (htags : getTags names tagS = TagRes.ok tags ns)
    (hfirst : inner.firstName = some n0)
    (hload : loadFields reg env ns inner = (inner2, ns2, some e)) :
    loadFields reg env names (Fields.fcons f tagS (Val.vstruct inner) rest) =
      (Fields.fcons f tagS (Val.vstruct inner2) rest, ns2, some (LoadErr.nested n0 e)) ∧
    (LoadErr.nested n0 e).message =
      "error loading nested struct \x27" ++ n0 ++ "\x27: " ++ e.message := by
  constructor
  · simp [loadFields, htags, Val.isStructV, loadNested, hload, Val.structFirstName, hfirst]
  · rfl

/-- C5 witness: a nested struct whose inner field In (tagged with the
missing variable MISSING) fails; the outer error names In, embeds the
cause, and the sibling field Sib is left unprocessed. -/
theorem C5_nested_error_witness :
    loadFields [] (fun _ => "") []
      (Fields.fcons "Nested" ""
        (Val.vstruct (Fields.fcons "In" "MISSING" (Val.vstr "") Fields.fnil))
        (Fields.fcons "Sib" "SIB" (Val.vstr "") Fields.fnil)) =
      (Fields.fcons "Nested" ""
        (Val.vstruct (Fields.fcons "In" "MISSING" (Val.vstr "") Fields.fnil))
        (Fields.fcons "Sib" "SIB" (Val.vstr "") Fields.fnil), ["MISSING"],
       some (LoadErr.nested "In" (LoadErr.envNotFound "MISSING"))) :=
  (C5_nested_error [] (fun _ => "") [] [] ["MISSING"] "Nested" "" "In" []
    (Fields.fcons "In" "MISSING" (Val.vstr "") Fields.fnil)
    (Fields.fcons "In" "MISSING" (Val.vstr "") Fields.fnil)
    (Fields.fcons "Sib" "SIB" (Val.vstr "") Fields.fnil)
    (LoadErr.envNotFound "MISSING") (by decide) (by decide) (by decide)).1

/-- C6: any argument that is not a pointer to a struct — a plain value, or
a pointer to a non-struct value — fails immediately with the TypeError
"config must be a pointer to a struct"; the argument is returned unchanged
(no field mutated) and the duplicate-tag registry is unchanged (no name
recorded). -/
theorem C6_pointer_precondition (reg : EnvTypes) (env : Env) (names : List String)
    (v : Val) (hv : Val.isStructV v = false) :
    (∀ w : Val, loadEnv reg env names (GoVal.val w) =
      ⟨GoVal.val w, names, some LoadErr.notStructPtr⟩) ∧
    loadEnv reg env names (GoVal.ptr v) = ⟨GoVal.ptr v, names, some LoadErr.notStructPtr⟩ ∧
    LoadErr.notStructPtr.message = "config must be a pointer to a struct" := by
  refine ⟨fun w => rfl, ?_, rfl⟩
  cases v <;> simp_all [loadEnv, Val.isStructV]

/-- C6 witness: a plain struct value and a pointer to an int both fail
with the TypeError, untouched. -/
theorem C6_pointer_precondition_witness :
    loadEnv [] (fun _ => "") ["X"] (GoVal.val (Val.vstruct Fields.fnil)) =
      ⟨GoVal.val (Val.vstruct Fields.fnil), ["X"], some LoadErr.notStructPtr⟩ ∧
    loadEnv [] (fun _ => "") ["X"] (GoVal.ptr (Val.vint 3)) =
      ⟨GoVal.ptr (Val.vint 3), ["X"], some LoadErr.notStructPtr⟩ :=
  ⟨(C6_pointer_precondition [] (fun _ => "") ["X"] (Val.vint 3) (by decide)).1
      (Val.vstruct Fields.fnil),
   (C6_pointer_precondition [] (fun _ => "") ["X"] (Val.vint 3) (by decide)).2.1⟩

/-- C7: for a growable (slice) field with well-bracketed input, the slice
is reallocated to exactly the parsed element count — also when a later
element fails, showing the allocation precedes conversion; every
element-conversion failure is an EnvParseError carrying the raw string of
that element and the directive name; and with a converted prefix followed by a
failing element, the loop stops at the failure, returning its error, with
the prefix written and the remaining slots still zero. -/
theorem C7_growable (reg : EnvTypes) (tags : TagMap) (t : ETy) (elts : ValList)
    (str : String) (strVals : List String)
    (hparse : parseArrayString str = Except.ok strVals) :
    (∃ out : List Val,
      (setIterableField reg true (Val.vslice t elts) str tags).1 =
        Val.vslice t (ValList.ofList out) ∧ out.length = strVals.length) ∧
    (∀ (cur : Val) (s : String) (e : LoadErr),
      setField reg true cur s tags = Except.error e →
      ∃ cause, e = LoadErr.envParse s (tmGet tags "name") cause) ∧
    (∀ (f : String → Val) (pre post : List String) (s : String) (e : LoadErr),
      strVals = pre ++ s :: post →
      (∀ x ∈ pre, setField reg true (zeroOf t) x tags = Except.ok (f x)) →
      setField reg true (zeroOf t) s tags = Except.error e →
      setIterableField reg true (Val.vslice t elts) str tags =
        (Val.vslice t (ValList.ofList
          (pre.map f ++ List.replicate (post.length + 1) (zeroOf t))), some e)) := by
  refine ⟨?_, ?_, ?_⟩
  · refine ⟨(convertInto reg true tags
      (List.replicate strVals.length (zeroOf t)) strVals).1, ?_, ?_⟩
    · simp [setIterableField, hparse]
    · rw [convertInto_length]; simp
  · intro cur s e h
    exact setField_error_shape reg true cur s tags e h
  · intro f pre post s e hsplit hpre hfail
    have hlen2 : pre.length + 1 + post.length ≤
        (List.replicate strVals.length (zeroOf t)).length := by
      simp [hsplit]; omega
    have hty : ∀ e2 ∈ List.replicate strVals.length (zeroOf t), e2.scalarTy = some t := by
      intro e2 he2
      rw [List.eq_of_mem_replicate he2]
      exact zeroOf_scalarTy t
    have hconv := convertInto_fail reg true tags t f s e pre post
      (List.replicate strVals.length (zeroOf t)) hlen2 hty hpre hfail
    rw [← hsplit] at hconv
    have hdrop : (List.replicate strVals.length (zeroOf t)).drop pre.length =
        List.replicate (post.length + 1) (zeroOf t) := by
      rw [List.drop_replicate]
      congr 1
      simp [hsplit]
    rw [hdrop] at hconv
    simp [setIterableField, hparse, hconv]

/-- C7 witness: loading "[5,x,6]" into an int slice writes 5, fails on
"x" with the parse error for that element, and the slice keeps length 3
with the untouched slots still zero. -/
theorem C7_growable_witness :
    setIterableField [] true (Val.vslice ETy.eint ValList.vnil) "[5,x,6]" [("name", "L")] =
      (Val.vslice ETy.eint (ValList.ofList
        [Val.vint 5, Val.vint 0, Val.vint 0]),
       some (LoadErr.envParse "x" "L" "expected integer")) := by
  have h := (C7_growable [] [("name", "L")] ETy.eint ValList.vnil "[5,x,6]"
    ["5", "x", "6"] (by decide)).2.2 (fun s => Val.vint ((scanInt s.data).getD 0))
    ["5"] ["6"] "x" (LoadErr.envParse "x" "L" "expected integer")
    (by decide) (by decide) (by decide)
  simpa using h

/-- C8: a registered converter is found for its type, a later registration
for the same type overwrites the earlier one, the registered converter
takes precedence over the generic scanning fallback (setField stores
exactly the value the converter returns), and a full Load of a single
field of that type from an accepted string stores the converter value. -/
theorem C8_custom_converter (t : ETy) (g : Converter) :
    (∀ reg : EnvTypes, lookupEnvType (registerEnvType reg t g) t = some g) ∧
    (∀ (reg : EnvTypes) (g2 : Converter),
      lookupEnvType (registerEnvType (registerEnvType reg t g) t g2) t = some g2) ∧
    (∀ (reg : EnvTypes) (cur : Val) (s : String) (v : Val) (tags : TagMap),
      lookupEnvType reg t = some g → g s = Except.ok v → cur.scalarTy = some t →
      setField reg true cur s tags = Except.ok v) ∧
    (∀ (reg : EnvTypes) (env : Env) (names : List String) (fname tagS N : String)
       (cur v : Val),
      goFieldsFunc SplitTags tagS = [N] → ¬ N ∈ names →
      env N ≠ "" → cur.scalarTy = some t → isExported fname = true →
      lookupEnvType reg t = some g → g (env N) = Except.ok v →
      loadEnv reg env names (GoVal.ptr (Val.vstruct (Fields.fcons fname tagS cur Fields.fnil))) =
        ⟨GoVal.ptr (Val.vstruct (Fields.fcons fname tagS v Fields.fnil)), N :: names, none⟩) := by
  refine ⟨?_, ?_, ?_, ?_⟩
  · intro reg
    simp [lookupEnvType, registerEnvType]
  · intro reg g2
    simp [lookupEnvType, registerEnvType]
  · intro reg cur s v tags hlook hg hty
    simp [setField, hty, hlook, hg]
  · intro reg env names fname tagS N cur v h1 hmem henv hty hexp hlook hg
    have hN : N ≠ "" := goFieldsFunc_mem_ne_empty (by rw [h1]; simp)
    have htags1 : getTags names tagS = TagRes.ok [("name", N)] (N :: names) := by
      simp [getTags, h1, tagSliceToKeyMap, hmem, tagLoop, tmInsert]
    have hname1 : tmGet [("name", N)] "name" = N := by simp [tmGet, tmFind?]
    have hgf : getField env [("name", N)] = Except.ok (env N) := by
      simp [getField, hname1, henv]
    obtain ⟨hslice, harray, hstruct⟩ := scalarTy_kinds hty
    have hset : setField reg (isExported fname) cur (env N) [("name", N)] = Except.ok v := by
      rw [hexp]
      simp [setField, hty, hlook, hg]
    simp [loadEnv, loadFields, htags1, hstruct, hname1, hN, hgf, henv, hslice, harray, hset]

/-- C8 witness: a converter for the Duration custom type, registered on
top of an earlier one for the same type, wins the lookup and its value is
stored by a full Load. -/
theorem C8_custom_converter_witness :
    loadEnv (registerEnvType (registerEnvType [] (ETy.ecustom "Duration")
        (fun _ => Except.error "old"))
      (ETy.ecustom "Duration") (fun s => Except.ok (Val.vcustom "Duration" (s ++ "!"))))
      (fun k => if k = "D" then "5s" else "") []
      (GoVal.ptr (Val.vstruct (Fields.fcons "Dur" "D"
        (Val.vcustom "Duration" "") Fields.fnil))) =
      ⟨GoVal.ptr (Val.vstruct (Fields.fcons "Dur" "D"
        (Val.vcustom "Duration" "5s!") Fields.fnil)), ["D"], none⟩ :=
  (C8_custom_converter (ETy.ecustom "Duration")
      (fun s => Except.ok (Val.vcustom "Duration" (s ++ "!")))).2.2.2
    (registerEnvType (registerEnvType [] (ETy.ecustom "Duration")
        (fun _ => Except.error "old"))
      (ETy.ecustom "Duration") (fun s => Except.ok (Val.vcustom "Duration" (s ++ "!"))))
    (fun k => if k = "D" then "5s" else "") [] "Dur" "D" "D"
    (Val.vcustom "Duration" "") (Val.vcustom "Duration" "5s!")
    (by decide) (by decide) (by decide) (by decide) (by decide)
    (by simp [lookupEnvType, registerEnvType]) (by decide)

/-- The registry returned by loadEnv on a pointer-to-struct is the one
returned by the field loop. -/
theorem loadEnv_names_eq (reg : EnvTypes) (env : Env) (names : List String) (fs : Fields) :
    (loadEnv reg env names (GoVal.ptr (Val.vstruct fs))).names =
      (loadFields reg env names fs).2.1 := by
  rcases h : loadFields reg env names fs with ⟨a, b, c⟩
  simp [loadEnv, h]

/-- After a successful tag parse of a single non-struct field, the
registry leaving the field loop is exactly the registry the parse
produced, whatever else happens to the field. -/
theorem loadFields_single_names (reg : EnvTypes) (env : Env) (ns0 : List String)
    (f tg : String) (v : Val) (m : TagMap) (ns : List String)
    (hv : v.isStructV = false) (hg : getTags ns0 tg = TagRes.ok m ns) :
    (loadFields reg env ns0 (Fields.fcons f tg v Fields.fnil)).2.1 = ns := by
  simp only [loadFields, hg, hv]
  split
  · simp_all
  · split
    · rfl
    · split
      · rfl
      · split
        · rfl
        · split
          · split <;> rfl
          · split <;> rfl

/-- C9: the duplicate-name registry persists across Load calls: a Load of
a field whose tag parses to an unseen name N always leaves N in the
registry; thereafter, any tag parse of N against a registry containing N
fails with the duplicate error, and a subsequent Load whose first field is
tagged N fails with the DuplicateDirective error even though the two uses
are in different invocations. -/
theorem C9_registry_persists (reg : EnvTypes) (env : Env) (names : List String)
    (f1 tag1 N : String) (ts : List String) (v1 : Val)
    (h1 : goFieldsFunc SplitTags tag1 = N :: ts)
    (hmem : ¬ N ∈ names) (hstruct : Val.isStructV v1 = false) :
    N ∈ (loadEnv reg env names (GoVal.ptr (Val.vstruct
      (Fields.fcons f1 tag1 v1 Fields.fnil)))).names ∧
    (∀ (names2 : List String) (tag2 : String) (ts2 : List String), N ∈ names2 →
      goFieldsFunc SplitTags tag2 = N :: ts2 →
      getTags names2 tag2 = TagRes.err N names2) ∧
    (∀ (reg2 : EnvTypes) (env2 : Env) (names2 : List String) (f2 tag2 : String)
       (ts2 : List String) (v2 : Val) (rest : Fields), N ∈ names2 →
      goFieldsFunc SplitTags tag2 = N :: ts2 →
      loadEnv reg2 env2 names2 (GoVal.ptr (Val.vstruct (Fields.fcons f2 tag2 v2 rest))) =
        ⟨GoVal.ptr (Val.vstruct (Fields.fcons f2 tag2 v2 rest)), names2,
         some (LoadErr.fieldTags f2 (LoadErr.dupTag N))⟩) := by
  refine ⟨?_, ?_, ?_⟩
  · rw [loadEnv_names_eq]
    cases htl : tagLoop (tmInsert [] "name" N) ts with
    | panic =>
      have hg : getTags names tag1 = TagRes.panic (N :: names) := by
        simp [getTags, h1, tagSliceToKeyMap, hmem, htl]
      simp [loadFields, hg]
    | err d =>
      have hg : getTags names tag1 = TagRes.err d (N :: names) := by
        simp [getTags, h1, tagSliceToKeyMap, hmem, htl]
      simp [loadFields, hg]
    | ok m =>
      have hg : getTags names tag1 = TagRes.ok m (N :: names) := by
        simp [getTags, h1, tagSliceToKeyMap, hmem, htl]
      rw [loadFields_single_names reg env names f1 tag1 v1 m (N :: names) hstruct hg]
      simp
  · intro names2 tag2 ts2 hmem2 h2
    simp [getTags, h2, tagSliceToKeyMap, hmem2]
  · intro reg2 env2 names2 f2 tag2 ts2 v2 rest hmem2 h2
    have hg : getTags names2 tag2 = TagRes.err N names2 := by
      simp [getTags, h2, tagSliceToKeyMap, hmem2]
    simp [loadEnv, loadFields, hg]

/-- C9 witness: loading Host (tag HOST) records HOST; a second load of a
different struct whose field Server is also tagged HOST then fails with
the duplicate error, across invocations. -/
theorem C9_registry_persists_witness :
    "HOST" ∈ (loadEnv [] (fun k => if k = "HOST" then "h" else "") []
      (GoVal.ptr (Val.vstruct (Fields.fcons "Host" "HOST" (Val.vstr "")
        Fields.fnil)))).names ∧
    loadEnv [] (fun k => if k = "HOST" then "h" else "") ["HOST"]
      (GoVal.ptr (Val.vstruct (Fields.fcons "Server" "HOST" (Val.vstr "") Fields.fnil))) =
      ⟨GoVal.ptr (Val.vstruct (Fields.fcons "Server" "HOST" (Val.vstr "") Fields.fnil)),
       ["HOST"], some (LoadErr.fieldTags "Server" (LoadErr.dupTag "HOST"))⟩ :=
  ⟨(C9_registry_persists [] (fun k => if k = "HOST" then "h" else "") [] "Host" "HOST"
      "HOST" [] (Val.vstr "") (by decide) (by decide) (by decide)).1,
   (C9_registry_persists [] (fun k => if k = "HOST" then "h" else "") [] "Host" "HOST"
      "HOST" [] (Val.vstr "") (by decide) (by decide) (by decide)).2.2
     [] (fun k => if k = "HOST" then "h" else "") ["HOST"] "Server" "HOST" []
     (Val.vstr "") Fields.fnil (by decide) (by decide)⟩

/-- Under the no-dangling-default precondition the tag loop never reaches
the out-of-bounds access. -/
theorem tagLoop_no_panic (n : Nat) :
    ∀ (rest : List String) (m : TagMap), rest.length ≤ n →
      noDanglingDefault rest = true → tagLoop m rest ≠ TagLoopRes.panic := by
  induction n with
  | zero =>
    intro rest m hlen _
    rw [List.length_eq_zero.mp (Nat.le_zero.mp hlen)]
    simp [tagLoop]
  | succ n ih =>
    intro rest m hlen hd
    match rest with
    | [] => simp [tagLoop]
    | item :: rest1 =>
      by_cases hitem : item = "default"
      · subst hitem
        match rest1 with
        | [] => simp [noDanglingDefault] at hd
        | w :: rest2 =>
          have hd2 : noDanglingDefault rest2 = true := by
            simpa [noDanglingDefault] using hd
          by_cases hdup : (tmFind? m "default").isSome = true
          · simp [tagLoop, hdup]
          · simp only [tagLoop, if_neg hdup, if_pos rfl]
            exact ih rest2 (tmInsert m "default" w) (by simp at hlen ⊢; omega) hd2
      · match rest1 with
        | [] => simp [tagLoop, hitem]
        | w :: rest2 =>
          have hd2 : noDanglingDefault (w :: rest2) = true := by
            simpa [noDanglingDefault, hitem] using hd
          simp only [tagLoop, if_neg hitem]
          exact ih (w :: rest2) (tmInsert m item "") (by simp at hlen ⊢; omega) hd2

/-- C10: a tag annotation whose final token is the keyword "default" with
no value token after it makes tagSliceToKeyMap access the token one past
the end of the token slice (modelled as the panic outcome) instead of
returning an error — witnessed by "NAME;default" — while under the
precondition that every "default" keyword is followed by a value token
the access is always in bounds. -/
theorem C10_default_token_bounds :
    tagSliceToKeyMap [] ["NAME", "default"] = TagRes.panic ["NAME"] ∧
    getTags [] "NAME;default" = TagRes.panic ["NAME"] ∧
    (∀ (names : List String) (slice : List String),
      noDanglingDefault (slice.drop 1) = true →
      (tagSliceToKeyMap names slice).isPanic = false) := by
  refine ⟨by decide, by decide, ?_⟩
  intro names slice hd
  match slice with
  | [] => simp [tagSliceToKeyMap, TagRes.isPanic]
  | name :: rest =>
    simp only [List.drop_succ_cons, List.drop_zero] at hd
    simp only [tagSliceToKeyMap]
    split
    · simp [TagRes.isPanic]
    · cases htl : tagLoop (tmInsert [] "name" name) rest with
      | panic => exact absurd htl (tagLoop_no_panic rest.length rest _ le_rfl hd)
      | err d => simp [TagRes.isPanic]
      | ok m => simp [TagRes.isPanic]

/-- C10 witness: the tokens of "N;default:v;optional" have no dangling
default, and their parse does not panic. -/
theorem C10_default_token_bounds_witness :
    (tagSliceToKeyMap ["X"] ["N", "default", "v", "optional"]).isPanic = false :=
  C10_default_token_bounds.2.2 ["X"] ["N", "default", "v", "optional"] (by decide)

end Goloadenv
